import Mathlib

/-
Verification of the request-execution and caching engine of the `ApiClient`
class (src/04-projects/api-integration.ts).

The embedding is shallow and executable:
  * JavaScript/JSON values that can flow through `body`, `data` and parsed
    response payloads are modelled by the inductive `Json`; JavaScript
    truthiness is `jsTruthy`, and `JSON.stringify` is `stringify`.
  * JavaScript objects used as string-to-string maps (headers) are modelled
    as association lists where the LAST binding for a key wins, so an object
    spread `\x7b...a, ...b\x7d` is list append and lookup is `jsLookup`.
  * `Map<string, CacheEntry>` is an association list with unique keys,
    `mapSet` replacing and `mapDelete` removing a binding; lookup is
    `List.lookup` (first match; keys are unique by construction).
  * Time is an explicit integer clock (milliseconds).  The host `fetch`
    primitive is an external dependency, modelled as a function from the
    attempt index to an `AttemptBeh`: the attempt either never settles or
    settles after a duration with a response or a thrown transport error.
    The `AbortController` timeout is the absolute instant `abortTime`;
    a fetch whose settling instant lies beyond it (or that starts on an
    already-aborted signal) rejects with the "AbortError" `JsError`.
  * `number` fields are modelled as `Int` (timestamps, durations, TTLs can
    be negative in JavaScript); the retry counter is `Nat` (the code only
    compares it with 0 and decrements, so negative counters behave exactly
    like 0).
-/

namespace ApiModel

/-- JSON values (the payloads that `response.json()`, `config.body` and the
cache can carry).  Numbers are modelled as integers. -/
inductive Json where
  | null : Json
  | bool : Bool → Json
  | num : Int → Json
  | str : String → Json
  | arr : List Json → Json
  | obj : List (String × Json) → Json

/-- JavaScript truthiness of a `Json` value: `null`, `false`, `0` and the
empty string are falsy; arrays and objects are always truthy. -/
def jsTruthy : Json → Bool
  | .null => false
  | .bool b => b
  | .num n => if n = 0 then false else true
  | .str s => if s = ("") then false else true
  | .arr _ => true
  | .obj _ => true

/-- Escaping of one character inside a JSON string literal (quote and
backslash; control characters are not needed by any claim). -/
def escChar (c : Char) : String :=
  if c = '"' then "\\\"" else if c = '\\' then "\\\\" else String.singleton c

/-- Body of a JSON string literal. -/
def escapeJson (s : String) : String :=
  String.join (s.data.map escChar)

/-- A JSON string literal with its quotes. -/
def quoteStr (s : String) : String :=
  ("\"") ++ escapeJson s ++ ("\"")

mutual

/-- Model of `JSON.stringify` on `Json` values. -/
def stringify : Json → String
  | .null => ("null")
  | .bool true => ("true")
  | .bool false => ("false")
  | .num n => toString n
  | .str s => quoteStr s
  | .arr xs => ("[") ++ stringifyList xs ++ ("]")
  | .obj fs => ("\x7b") ++ stringifyFields fs ++ ("\x7d")

/-- Comma-separated stringification of array elements. -/
def stringifyList : List Json → String
  | [] => ("")
  | [j] => stringify j
  | j :: rest => stringify j ++ (",") ++ stringifyList rest

/-- Comma-separated stringification of object fields. -/
def stringifyFields : List (String × Json) → String
  | [] => ("")
  | [(k, v)] => quoteStr k ++ (":") ++ stringify v
  | (k, v) :: rest => quoteStr k ++ (":") ++ stringify v ++ (",") ++ stringifyFields rest

end

/-- The five HTTP methods of the client (`HttpMethod` in the source). -/
inductive HttpMethod where
  | GET | POST | PUT | PATCH | DELETE
deriving DecidableEq

/-- Template-literal rendering of a method, as in the cache key. -/
def methodStr : HttpMethod → String
  | .GET => ("GET")
  | .POST => ("POST")
  | .PUT => ("PUT")
  | .PATCH => ("PATCH")
  | .DELETE => ("DELETE")

/-- A thrown JavaScript error, discriminated (as the source does) by its
`name`; `fetch` transport failures carry name "TypeError", an abort carries
name "AbortError". -/
structure JsError where
  name : String
  message : String
deriving DecidableEq

/-- The error produced when the abort signal fires. -/
def abortErr : JsError :=
  ⟨("AbortError"), ("The operation was aborted")⟩

/-- A settled transport response: status line, headers and the already
parsed JSON body (`response.json()` is collapsed into the model). -/
structure Response where
  status : Nat
  statusText : String
  headers : List (String × String)
  data : Json

/-- `response.ok` of the fetch API: status in the inclusive range 200-299. -/
def Response.ok (r : Response) : Bool :=
  decide (200 ≤ r.status) && decide (r.status < 300)

/-- The `ApiResponse<T>` wrapper returned by `request` on success. -/
structure ApiResponse where
  data : Json
  status : Nat
  statusText : String
  headers : List (String × String)

/-- The `ApiError` shape: message, status (0 transport, 408 timeout, else
the HTTP status) and the optional parsed error payload. -/
structure ApiErrorM where
  message : String
  status : Nat
  response : Option Json

/-- `RequestConfig` of the source.  `headers`, `body`, `timeout`, `retries`
and `retryDelay` are optional exactly as in the interface. -/
structure RequestConfig where
  method : HttpMethod
  headers : Option (List (String × String)) := none
  body : Option Json := none
  timeout : Option Int := none
  retries : Option Nat := none
  retryDelay : Option Int := none

/-- `Partial<RequestConfig>`: every field optional, including `method`
(the verb helpers accept such a value and spread it over their defaults). -/
structure PartialConfig where
  method : Option HttpMethod := none
  headers : Option (List (String × String)) := none
  body : Option Json := none
  timeout : Option Int := none
  retries : Option Nat := none
  retryDelay : Option Int := none

/-- `\x7b method: "GET", ...config \x7d` of `get`: the spread comes after the
literal `method` field, so a caller-supplied method overrides the verb. -/
def mkGetConfig (cfg : PartialConfig) : RequestConfig :=
  { method := cfg.method.getD .GET
    headers := cfg.headers
    body := cfg.body
    timeout := cfg.timeout
    retries := cfg.retries
    retryDelay := cfg.retryDelay }

/-- `\x7b method: "POST", body, ...config \x7d` of `post`. -/
def mkPostConfig (cfg : PartialConfig) (body : Json) : RequestConfig :=
  { method := cfg.method.getD .POST
    headers := cfg.headers
    body := some (cfg.body.getD body)
    timeout := cfg.timeout
    retries := cfg.retries
    retryDelay := cfg.retryDelay }

/-- `\x7b method: "PUT", body, ...config \x7d` of `put`. -/
def mkPutConfig (cfg : PartialConfig) (body : Json) : RequestConfig :=
  { method := cfg.method.getD .PUT
    headers := cfg.headers
    body := some (cfg.body.getD body)
    timeout := cfg.timeout
    retries := cfg.retries
    retryDelay := cfg.retryDelay }

/-- `\x7b method: "PATCH", body, ...config \x7d` of `patch`. -/
def mkPatchConfig (cfg : PartialConfig) (body : Json) : RequestConfig :=
  { method := cfg.method.getD .PATCH
    headers := cfg.headers
    body := some (cfg.body.getD body)
    timeout := cfg.timeout
    retries := cfg.retries
    retryDelay := cfg.retryDelay }

/-- `\x7b method: "DELETE", ...config \x7d` of `delete`. -/
def mkDeleteConfig (cfg : PartialConfig) : RequestConfig :=
  { method := cfg.method.getD .DELETE
    headers := cfg.headers
    body := cfg.body
    timeout := cfg.timeout
    retries := cfg.retries
    retryDelay := cfg.retryDelay }

/-- JavaScript `a || d` on an optional number: the default is taken when the
value is absent or equal to 0 (0 is falsy). -/
def jsOrInt (o : Option Int) (d : Int) : Int :=
  match o with
  | some v => if v = 0 then d else v
  | none => d

/-- JavaScript truthiness of an optional number (`if (cacheTtl)`). -/
def jsTruthyNum (o : Option Int) : Bool :=
  match o with
  | some v => if v = 0 then false else true
  | none => false

/-- Lookup in a JavaScript object modelled as an association list where the
last binding for a key wins. -/
def jsLookup (l : List (String × String)) (k : String) : Option String :=
  l.foldl (fun acc p => if p.1 = k then some p.2 else acc) none

/-- A cache entry: data, creation instant and expiry instant. -/
structure CacheEntry where
  data : Json
  timestamp : Int
  expiresAt : Int

/-- `Map.set`: replace any existing binding for the key, else append. -/
def mapSet (m : List (String × CacheEntry)) (k : String) (v : CacheEntry) :
    List (String × CacheEntry) :=
  (m.filter (fun p => p.1 ≠ k)) ++ [(k, v)]

/-- `Map.delete`. -/
def mapDelete (m : List (String × CacheEntry)) (k : String) :
    List (String × CacheEntry) :=
  m.filter (fun p => p.1 ≠ k)

/-- `baseUrl.replace(/\/$/, "")`: strip one trailing slash. -/
def stripTrailingSlash (s : String) : String :=
  if s.endsWith ("/") then s.dropRight 1 else s

/-- The private state of an `ApiClient` instance. -/
structure ClientState where
  baseUrl : String
  defaultHeaders : List (String × String)
  cache : List (String × CacheEntry)
  defaultTimeout : Int

/-- The constructor: strips one trailing slash from the base URL, spreads
the caller's default headers over the built-in Content-Type binding, starts
with an empty cache, and fixes the default timeout at 30000 ms. -/
def mkClient (baseUrl : String) (defaultHeaders : List (String × String)) :
    ClientState :=
  { baseUrl := stripTrailingSlash baseUrl
    defaultHeaders := (("Content-Type"), ("application/json")) :: defaultHeaders
    cache := []
    defaultTimeout := 30000 }

/-- `getCacheKey`: method, endpoint and `JSON.stringify(config.body || \x7b\x7d)`
joined by colons.  A falsy body (absent, null, false, 0, "") is replaced by
the empty object before stringification. -/
def getCacheKey (endpoint : String) (cfg : RequestConfig) : String :=
  methodStr cfg.method ++ (":") ++ endpoint ++ (":") ++
    stringify (match cfg.body with
      | some b => if jsTruthy b then b else .obj []
      | none => .obj [])

/-- `getFromCache` at instant `now`: returns the data of a live entry, or
`none`; an expired entry is deleted (the second component is the cache map
after the lookup). -/
def getFromCache (cache : List (String × CacheEntry)) (key : String)
    (now : Int) : Option Json × List (String × CacheEntry) :=
  match List.lookup key cache with
  | none => (none, cache)
  | some entry =>
      if now > entry.expiresAt then (none, mapDelete cache key)
      else (some entry.data, cache)

/-- `saveToCache` at instant `now`: store the data with
`expiresAt = now + ttl`. -/
def saveToCache (cache : List (String × CacheEntry)) (key : String)
    (dta : Json) (ttl : Int) (now : Int) : List (String × CacheEntry) :=
  mapSet cache key ⟨dta, now, now + ttl⟩

/-- Behaviour of one transport attempt, supplied by the host environment:
the attempt either never settles, or settles after `dur` milliseconds with
either a response or a thrown transport error message. -/
inductive AttemptBeh where
  | hang : AttemptBeh
  | settles : Nat → Except String Response → AttemptBeh

/-- One `fetch(url, options)` call at instant `t` for attempt index `i`,
under an abort signal scheduled for the absolute instant `abortTime`:
if the signal is already aborted the call rejects immediately with
"AbortError"; if the attempt would settle only at or after `abortTime`
(or never), it rejects with "AbortError" when the timer fires; otherwise
it settles with its own outcome (a transport failure is a "TypeError").
The second component is the instant at which the call settles. -/
def doFetch (tr : Nat → AttemptBeh) (abortTime t : Int) (i : Nat) :
    Except JsError Response × Int :=
  if abortTime ≤ t then (.error abortErr, t)
  else
    match tr i with
    | .hang => (.error abortErr, abortTime)
    | .settles d o =>
        if abortTime < t + (d : Int) then (.error abortErr, abortTime)
        else
          match o with
          | .ok r => (.ok r, t + (d : Int))
          | .error m => (.error ⟨("TypeError"), m⟩, t + (d : Int))

/-- Observable result of `fetchWithRetry`: the settled outcome, how many
times the transport was invoked, the raw delays passed to `setTimeout`
between attempts, and the instant the whole call settled. -/
structure RetryResult where
  outcome : Except JsError Response
  attempts : Nat
  waits : List Int
  endTime : Int

/-- `fetchWithRetry(url, options, retries, delay)`: try the fetch; on a
thrown error with retries remaining, wait `delay` (negative delays are
clamped to 0 by `setTimeout`), then recurse with `retries - 1` and the
delay doubled; on exhaustion rethrow the last error.  The retry counter is
the first explicit argument so the recursion is structural. -/
def fetchWithRetry (tr : Nat → AttemptBeh) (abortTime : Int) :
    Nat → Int → Nat → Int → RetryResult
  | 0, t, i, _ =>
      let f := doFetch tr abortTime t i
      ⟨f.1, 1, [], f.2⟩
  | n + 1, t, i, delay =>
      let f := doFetch tr abortTime t i
      match f.1 with
      | .ok r => ⟨.ok r, 1, [], f.2⟩
      | .error _ =>
          let rest := fetchWithRetry tr abortTime n (f.2 + max delay 0) (i + 1) (delay * 2)
          ⟨rest.outcome, rest.attempts + 1, delay :: rest.waits, rest.endTime⟩

/-- The `RequestInit` options built by `request`: method, headers merged
with the caller's headers spread last, and the serialized body, attached
only when the body is truthy and the method is not GET. -/
structure Options where
  method : HttpMethod
  headers : List (String × String)
  body : Option String

/-- Building the request options from the client state and the config. -/
def buildOptions (st : ClientState) (cfg : RequestConfig) : Options :=
  { method := cfg.method
    headers := st.defaultHeaders ++ cfg.headers.getD []
    body :=
      match cfg.body with
      | some b =>
          if jsTruthy b && decide (cfg.method ≠ .GET) then some (stringify b)
          else none
      | none => none }

/-- The catch-clause classification of `request`: an "AbortError" becomes
`ApiError(408, "Request timeout")`, any other thrown error becomes
`ApiError(0, message)`.  (A thrown `ApiError` — the non-success-status
path — is rethrown unchanged and never reaches this classifier.) -/
def classifyError (e : JsError) : ApiErrorM :=
  if e.name = ("AbortError") then ⟨("Request timeout"), 408, none⟩
  else ⟨e.message, 0, none⟩

/-- Observable outcome of one `request` call: the classified result, the
URL and options of the outgoing request, the length of the cancellation
timer, the number of transport invocations, the retry waits, and the
instant the call settled. -/
structure RequestOutcome where
  result : Except ApiErrorM ApiResponse
  url : String
  opts : Options
  timerMs : Int
  attempts : Nat
  waits : List Int
  endTime : Int

/-- `request<T>(endpoint, config)` starting at instant `t0`:
`timeout = config.timeout || defaultTimeout`, the abort timer is armed for
`t0 + timeout`, the call goes through `fetchWithRetry` with
`config.retries || 0` and `config.retryDelay || 1000`, a settled response
with a non-success status raises `ApiError(status, parsed body)`, a settled
success returns the `ApiResponse` wrapper, and a thrown error is
classified by `classifyError`. -/
def requestM (st : ClientState) (tr : Nat → AttemptBeh) (t0 : Int)
    (endpoint : String) (cfg : RequestConfig) : RequestOutcome :=
  let url := st.baseUrl ++ endpoint
  let timer := jsOrInt cfg.timeout st.defaultTimeout
  let opts := buildOptions st cfg
  let fr := fetchWithRetry tr (t0 + timer) (cfg.retries.getD 0) t0 0
      (jsOrInt cfg.retryDelay 1000)
  let res : Except ApiErrorM ApiResponse :=
    match fr.outcome with
    | .ok resp =>
        if resp.ok then
          .ok ⟨resp.data, resp.status, resp.statusText, resp.headers⟩
        else
          .error ⟨("HTTP ") ++ toString resp.status ++ (": ") ++ resp.statusText,
                  resp.status, some resp.data⟩
    | .error e => .error (classifyError e)
  ⟨res, url, opts, timer, fr.attempts, fr.waits, fr.endTime⟩

/-- Observable outcome of a verb entry point: the unwrapped payload or the
raised error, the client state after the call, and the list of `request`
calls actually performed (empty on a cache hit). -/
structure VerbResult where
  result : Except ApiErrorM Json
  state : ClientState
  calls : List RequestOutcome

/-- The network-then-cache tail of a cacheable `get` miss (the inner
closure of `get`, lambda-lifted): perform the request; on success store the
data under the key in `cacheAfter` (the cache map as left by the lookup,
i.e. with an expired entry already evicted) with
`expiresAt = settling instant + ttl`; on failure propagate the error and
leave `cacheAfter` untouched. -/
def netAndCacheR (st : ClientState) (tr : Nat → AttemptBeh) (t : Int)
    (endpoint : String) (cfg : PartialConfig) (v : Int)
    (cacheAfter : List (String × CacheEntry)) : VerbResult :=
  let key := getCacheKey endpoint (mkGetConfig cfg)
  let r := requestM st tr t endpoint (mkGetConfig cfg)
  match r.result with
  | .ok resp =>
      ⟨.ok resp.data,
       { st with cache := saveToCache cacheAfter key resp.data v r.endTime },
       [r]⟩
  | .error err => ⟨.error err, { st with cache := cacheAfter }, [r]⟩

/-- `get<T>(endpoint, config, cacheTtl)` starting at instant `t`:
the full config is the verb literal spread under the caller's config;
when `cacheTtl` is truthy, a live cache entry whose data passes the
`if (cached)` truthiness check is returned without any network call,
otherwise the request runs via `netAndCacheR`. -/
def getM (st : ClientState) (tr : Nat → AttemptBeh) (t : Int)
    (endpoint : String) (cfg : PartialConfig) (cacheTtl : Option Int) :
    VerbResult :=
  let fullConfig := mkGetConfig cfg
  let plain : VerbResult :=
    let r := requestM st tr t endpoint fullConfig
    ⟨r.result.map (fun x => x.data), st, [r]⟩
  match cacheTtl with
  | none => plain
  | some v =>
      if v = 0 then plain
      else
        let key := getCacheKey endpoint fullConfig
        let lk := getFromCache st.cache key t
        match lk.1 with
        | some dta =>
            if jsTruthy dta then ⟨.ok dta, { st with cache := lk.2 }, []⟩
            else netAndCacheR st tr t endpoint cfg v lk.2
        | none => netAndCacheR st tr t endpoint cfg v lk.2

/-- `post<T, B>(endpoint, body, config)`: the cache is never consulted nor
modified. -/
def postM (st : ClientState) (tr : Nat → AttemptBeh) (t : Int)
    (endpoint : String) (body : Json) (cfg : PartialConfig) : VerbResult :=
  let r := requestM st tr t endpoint (mkPostConfig cfg body)
  ⟨r.result.map (fun x => x.data), st, [r]⟩

/-- `put<T, B>(endpoint, body, config)`. -/
def putM (st : ClientState) (tr : Nat → AttemptBeh) (t : Int)
    (endpoint : String) (body : Json) (cfg : PartialConfig) : VerbResult :=
  let r := requestM st tr t endpoint (mkPutConfig cfg body)
  ⟨r.result.map (fun x => x.data), st, [r]⟩

/-- `patch<T, B>(endpoint, body, config)`. -/
def patchM (st : ClientState) (tr : Nat → AttemptBeh) (t : Int)
    (endpoint : String) (body : Json) (cfg : PartialConfig) : VerbResult :=
  let r := requestM st tr t endpoint (mkPatchConfig cfg body)
  ⟨r.result.map (fun x => x.data), st, [r]⟩

/-- `delete<T>(endpoint, config)`. -/
def deleteM (st : ClientState) (tr : Nat → AttemptBeh) (t : Int)
    (endpoint : String) (cfg : PartialConfig) : VerbResult :=
  let r := requestM st tr t endpoint (mkDeleteConfig cfg)
  ⟨r.result.map (fun x => x.data), st, [r]⟩

/-- `clearCache()`: unconditionally empty the cache map. -/
def clearCacheM (st : ClientState) : ClientState :=
  { st with cache := [] }

/-! ### Helper functions and lemmas about the retry wrapper -/

/-- Settling duration of an attempt behaviour (0 for a hanging attempt,
whose duration is never used). -/
def durOf : AttemptBeh → Nat
  | .hang => 0
  | .settles d _ => d

/-- Whether an attempt settles with a thrown transport failure. -/
def isFail : AttemptBeh → Bool
  | .settles _ (.error _) => true
  | _ => false

/-- The thrown message of a failing attempt (empty string otherwise). -/
def msgOf : AttemptBeh → String
  | .settles _ (.error m) => m
  | _ => ("")

/-- Whether a fetch started at instant `t` on this attempt behaviour is
terminated by the abort signal scheduled at `abortTime`: the signal already
fired, the attempt never settles, or it would settle only after the
signal fires. -/
def attemptAborts (b : AttemptBeh) (t abortTime : Int) : Bool :=
  if abortTime ≤ t then true
  else
    match b with
    | .hang => true
    | .settles d _ => decide (abortTime < t + (d : Int))

/-- Start instant of the `k`-th attempt of a retry run beginning at `t`
with attempt index `i` and current delay `delay`, assuming every earlier
attempt settles (rather than being aborted). -/
def startAt (tr : Nat → AttemptBeh) : Nat → Int → Nat → Int → Int
  | 0, t, _, _ => t
  | k + 1, t, i, delay =>
      startAt tr k (t + (durOf (tr i) : Int) + max delay 0) (i + 1) (delay * 2)

/-! ### Concrete instances used by witnesses and counterexamples -/

def trC6 : Nat → AttemptBeh := fun k => .settles 2 (.error (("boom") ++ toString k))

def cfgC6 : RequestConfig :=
  { method := .GET, timeout := some 1000, retries := some 2, retryDelay := some 10 }

def respC9 : Response := ⟨404, ("Not Found"), [], .str ("missing")⟩

def trC9 : Nat → AttemptBeh := fun _ => .settles 2 (.ok respC9)

def cfgC9 : RequestConfig := { method := .GET, retries := some 5 }

def trC10 : Nat → AttemptBeh := fun _ => .hang

def cfgC10 : RequestConfig := { method := .GET }

def trC1 : Nat → AttemptBeh := fun _ => .hang

def cfgC1 : RequestConfig :=
  { method := .GET, timeout := some 50, retries := some 2, retryDelay := some 5 }

def trC1W : Nat → AttemptBeh := fun _ => .settles 100 (.ok ⟨200, ("OK"), [], .num 1⟩)

def cfgC1W : RequestConfig :=
  { method := .GET, timeout := some 10, retries := some 4, retryDelay := some 3 }

def trC3 : Nat → AttemptBeh := fun _ => .settles 1 (.error ("refused"))

def cfgC3 : PartialConfig := { method := some .POST }

def cfgC4z : RequestConfig := { method := .GET, body := some (.num 0) }

def cfgC4n : RequestConfig := { method := .GET }

def cfgC4a : RequestConfig := { method := .GET, body := some (.num 5), timeout := some 9 }

def cfgC4b : RequestConfig :=
  { method := .GET, body := some (.num 5), retries := some 3,
    headers := some [((("X-Auth")), (("y")))] }

def trC5 : Nat → AttemptBeh := fun _ => .settles 1 (.error ("refused"))

def cfgC5 : RequestConfig := { method := .GET, timeout := some 0 }

def cfgC5W : RequestConfig := { method := .GET, timeout := some 77 }

def respC2a : Response := ⟨200, ("OK"), [], .bool false⟩

def trC2a : Nat → AttemptBeh := fun _ => .settles 1 (.ok respC2a)

def respC2b : Response := ⟨200, ("OK"), [], .num 7⟩

def trC2b : Nat → AttemptBeh := fun _ => .settles 1 (.ok respC2b)

def callC2a : VerbResult := getM (mkClient ("http://a") []) trC2a 0 ("/d") {} (some 1000)

def callC2b : VerbResult := getM callC2a.state trC2b 5 ("/d") {} (some 1000)

def stC2W : ClientState :=
  { mkClient ("http://a") [] with
      cache := [(getCacheKey ("/d") (mkGetConfig {}), ⟨Json.num 3, 0, 1000⟩)] }

def trC2W : Nat → AttemptBeh := fun _ => .hang

def respC8 : Response := ⟨200, ("OK"), [], .num 5⟩

def trC8 : Nat → AttemptBeh := fun _ => .settles 1 (.ok respC8)

def runC8 : VerbResult := getM (mkClient ("http://a") []) trC8 0 ("/e") {} (some (-1))

def stC8W : ClientState := mkClient ("http://a") []

def trC8W : Nat → AttemptBeh := fun _ => .settles 1 (.error ("down"))

lemma isFail_elim (b : AttemptBeh) (h : isFail b = true) :
    b = .settles (durOf b) (.error (msgOf b)) := by
  cases b with
  | hang => simp [isFail] at h
  | settles d o =>
      cases o with
      | ok r => simp [isFail] at h
      | error m => simp [durOf, msgOf]

lemma doFetch_ok (tr : Nat → AttemptBeh) (abortTime t : Int) (i : Nat)
    (d : Nat) (resp : Response) (hbeh : tr i = .settles d (.ok resp))
    (hd : t + (d : Int) < abortTime) :
    doFetch tr abortTime t i = (.ok resp, t + (d : Int)) := by
  unfold doFetch
  rw [if_neg (by omega), hbeh]
  simp only []
  rw [if_neg (by omega)]

lemma doFetch_err (tr : Nat → AttemptBeh) (abortTime t : Int) (i : Nat)
    (d : Nat) (m : String) (hbeh : tr i = .settles d (.error m))
    (hd : t + (d : Int) < abortTime) :
    doFetch tr abortTime t i = (.error ⟨("TypeError"), m⟩, t + (d : Int)) := by
  unfold doFetch
  rw [if_neg (by omega), hbeh]
  simp only []
  rw [if_neg (by omega)]

lemma doFetch_abort (tr : Nat → AttemptBeh) (abortTime t : Int) (i : Nat)
    (h : attemptAborts (tr i) t abortTime = true) :
    doFetch tr abortTime t i =
      (.error abortErr, if abortTime ≤ t then t else abortTime) := by
  unfold attemptAborts at h
  unfold doFetch
  by_cases hc : abortTime ≤ t
  · rw [if_pos hc, if_pos hc]
  · rw [if_neg hc, if_neg hc]
    rw [if_neg hc] at h
    cases hb : tr i with
    | hang => rfl
    | settles d o =>
        rw [hb] at h
        simp only [decide_eq_true_eq] at h
        dsimp only
        rw [if_pos h]

lemma fetchWithRetry_alreadyAborted (tr : Nat → AttemptBeh) (abortTime : Int) :
    ∀ (n : Nat) (t : Int) (i : Nat) (delay : Int), abortTime ≤ t →
      (fetchWithRetry tr abortTime n t i delay).outcome = .error abortErr ∧
      (fetchWithRetry tr abortTime n t i delay).attempts = n + 1 := by
  intro n
  induction n with
  | zero =>
      intro t i delay h
      have hd : doFetch tr abortTime t i = (.error abortErr, t) := by
        unfold doFetch; rw [if_pos h]
      simp [fetchWithRetry, hd]
  | succ m ih =>
      intro t i delay h
      have hd : doFetch tr abortTime t i = (.error abortErr, t) := by
        unfold doFetch; rw [if_pos h]
      have hnext : abortTime ≤ t + max delay 0 := by
        have := le_max_right delay (0 : Int); omega
      obtain ⟨h1, h2⟩ := ih (t + max delay 0) (i + 1) (delay * 2) hnext
      simp only [fetchWithRetry, hd]
      exact ⟨h1, by rw [h2]⟩

lemma fetchWithRetry_abortFirst (tr : Nat → AttemptBeh) (abortTime : Int)
    (n : Nat) (t : Int) (i : Nat) (delay : Int)
    (h : attemptAborts (tr i) t abortTime = true) :
    (fetchWithRetry tr abortTime n t i delay).outcome = .error abortErr ∧
    (fetchWithRetry tr abortTime n t i delay).attempts = n + 1 := by
  have hd := doFetch_abort tr abortTime t i h
  cases n with
  | zero => simp [fetchWithRetry, hd]
  | succ m =>
      have hnext : abortTime ≤ (if abortTime ≤ t then t else abortTime) + max delay 0 := by
        have h0 := le_max_right delay (0 : Int)
        by_cases hc : abortTime ≤ t
        · rw [if_pos hc]; omega
        · rw [if_neg hc]; omega
      obtain ⟨h1, h2⟩ :=
        fetchWithRetry_alreadyAborted tr abortTime m
          ((if abortTime ≤ t then t else abortTime) + max delay 0) (i + 1) (delay * 2) hnext
      simp only [fetchWithRetry, hd]
      exact ⟨h1, by rw [h2]⟩

lemma waits_cons (delay : Int) (m : Nat) :
    (List.range (m + 1)).map (fun k => delay * 2 ^ k) =
      delay :: (List.range m).map (fun k => (delay * 2) * 2 ^ k) := by
  rw [List.range_succ_eq_map, List.map_cons, List.map_map]
  refine congrArg₂ _ (by ring) ?_
  refine List.map_congr_left ?_
  intro a _
  simp only [Function.comp_apply, Nat.succ_eq_add_one, pow_succ]
  ring

lemma fetchWithRetry_allFail (tr : Nat → AttemptBeh) (abortTime : Int) :
    ∀ (n : Nat) (t : Int) (i : Nat) (delay : Int),
      (∀ k, k ≤ n → isFail (tr (i + k)) = true) →
      (∀ k, k ≤ n → startAt tr k t i delay + (durOf (tr (i + k)) : Int) < abortTime) →
      fetchWithRetry tr abortTime n t i delay =
        ⟨.error ⟨("TypeError"), msgOf (tr (i + n))⟩, n + 1,
         (List.range n).map (fun k => delay * 2 ^ k),
         startAt tr n t i delay + (durOf (tr (i + n)) : Int)⟩ := by
  intro n
  induction n with
  | zero =>
      intro t i delay hfail htime
      have hb := isFail_elim (tr i) (by simpa using hfail 0 (by omega))
      have ht : t + (durOf (tr i) : Int) < abortTime := by
        simpa [startAt] using htime 0 (by omega)
      have hd := doFetch_err tr abortTime t i _ _ hb ht
      simp [fetchWithRetry, hd, startAt]
  | succ m ih =>
      intro t i delay hfail htime
      have hb := isFail_elim (tr i) (by simpa using hfail 0 (by omega))
      have ht : t + (durOf (tr i) : Int) < abortTime := by
        simpa [startAt] using htime 0 (by omega)
      have hd := doFetch_err tr abortTime t i _ _ hb ht
      have hfail2 : ∀ k, k ≤ m → isFail (tr (i + 1 + k)) = true := by
        intro k hk
        have h := hfail (k + 1) (by omega)
        rwa [show i + (k + 1) = i + 1 + k by omega] at h
      have htime2 : ∀ k, k ≤ m →
          startAt tr k (t + (durOf (tr i) : Int) + max delay 0) (i + 1) (delay * 2) +
            (durOf (tr (i + 1 + k)) : Int) < abortTime := by
        intro k hk
        have h := htime (k + 1) (by omega)
        rw [show i + (k + 1) = i + 1 + k by omega] at h
        simpa [startAt] using h
      simp only [fetchWithRetry, hd]
      rw [ih _ _ _ hfail2 htime2]
      have hidx : i + (m + 1) = i + 1 + m := by omega
      rw [hidx, waits_cons delay m]
      simp [startAt]

lemma fetchWithRetry_failsThenOk (tr : Nat → AttemptBeh) (abortTime : Int) :
    ∀ (m : Nat) (retries : Nat) (t : Int) (i : Nat) (delay : Int) (d : Nat)
      (resp : Response),
      m ≤ retries →
      (∀ k, k < m → isFail (tr (i + k)) = true) →
      tr (i + m) = .settles d (.ok resp) →
      (∀ k, k ≤ m → startAt tr k t i delay + (durOf (tr (i + k)) : Int) < abortTime) →
      fetchWithRetry tr abortTime retries t i delay =
        ⟨.ok resp, m + 1, (List.range m).map (fun k => delay * 2 ^ k),
         startAt tr m t i delay + (d : Int)⟩ := by
  intro m
  induction m with
  | zero =>
      intro retries t i delay d resp _ _ hbeh htime
      have ht : t + (d : Int) < abortTime := by
        have h := htime 0 (by omega)
        simp only [Nat.add_zero] at h hbeh
        rw [hbeh] at h
        simpa [startAt, durOf] using h
      have hd := doFetch_ok tr abortTime t i d resp (by simpa using hbeh) ht
      cases retries with
      | zero => simp [fetchWithRetry, hd, startAt]
      | succ r => simp [fetchWithRetry, hd, startAt]
  | succ mm ih =>
      intro retries t i delay d resp hm hfail hbeh htime
      cases retries with
      | zero => exact absurd hm (by omega)
      | succ r =>
          have hb := isFail_elim (tr i) (by simpa using hfail 0 (by omega))
          have ht : t + (durOf (tr i) : Int) < abortTime := by
            simpa [startAt] using htime 0 (by omega)
          have hd := doFetch_err tr abortTime t i _ _ hb ht
          have hfail2 : ∀ k, k < mm → isFail (tr (i + 1 + k)) = true := by
            intro k hk
            have h := hfail (k + 1) (by omega)
            rwa [show i + (k + 1) = i + 1 + k by omega] at h
          have hbeh2 : tr (i + 1 + mm) = .settles d (.ok resp) := by
            rwa [show i + (mm + 1) = i + 1 + mm by omega] at hbeh
          have htime2 : ∀ k, k ≤ mm →
              startAt tr k (t + (durOf (tr i) : Int) + max delay 0) (i + 1) (delay * 2) +
                (durOf (tr (i + 1 + k)) : Int) < abortTime := by
            intro k hk
            have h := htime (k + 1) (by omega)
            rw [show i + (k + 1) = i + 1 + k by omega] at h
            simpa [startAt] using h
          simp only [fetchWithRetry, hd]
          rw [ih r _ _ _ d resp (by omega) hfail2 hbeh2 htime2]
          rw [waits_cons delay mm]
          simp [startAt]

lemma fetchWithRetry_attempts_pos (tr : Nat → AttemptBeh) (abortTime : Int)
    (n : Nat) (t : Int) (i : Nat) (delay : Int) :
    1 ≤ (fetchWithRetry tr abortTime n t i delay).attempts := by
  cases n with
  | zero => simp [fetchWithRetry]
  | succ m =>
      cases hf : (doFetch tr abortTime t i).1 with
      | ok r => simp [fetchWithRetry, hf]
      | error e => simp [fetchWithRetry, hf]

lemma classify_typeErr (m : String) :
    classifyError ⟨("TypeError"), m⟩ = ⟨m, 0, none⟩ := by
  unfold classifyError
  split
  · next h => simp at h
  · rfl

lemma classify_abort : classifyError abortErr = ⟨("Request timeout"), 408, none⟩ := by
  simp [classifyError, abortErr]

/-! ### Lemmas about header and cache maps -/

lemma jsLookup_init (k : String) (l : List (String × String)) :
    ∀ a : Option String,
      List.foldl (fun acc p => if p.1 = k then some p.2 else acc) a l =
        match jsLookup l k with
        | some v => some v
        | none => a := by
  induction l with
  | nil => intro a; simp [jsLookup]
  | cons p rest ih =>
      intro a
      show List.foldl _ (if p.1 = k then some p.2 else a) rest = _
      rw [ih (if p.1 = k then some p.2 else a)]
      have hcons : jsLookup (p :: rest) k =
          match jsLookup rest k with
          | some v => some v
          | none => if p.1 = k then some p.2 else none := by
        show List.foldl _ (if p.1 = k then some p.2 else none) rest = _
        rw [ih (if p.1 = k then some p.2 else none)]
      rw [hcons]
      cases jsLookup rest k with
      | some v => rfl
      | none => by_cases hp : p.1 = k <;> simp [hp]

lemma jsLookup_append (l1 l2 : List (String × String)) (k : String) :
    jsLookup (l1 ++ l2) k =
      match jsLookup l2 k with
      | some v => some v
      | none => jsLookup l1 k := by
  show List.foldl _ none (l1 ++ l2) = _
  rw [List.foldl_append]
  exact jsLookup_init k l2 (jsLookup l1 k)

lemma lookup_filter_ne (m : List (String × CacheEntry)) (key k : String) :
    List.lookup k (m.filter (fun p => p.1 ≠ key)) =
      if k = key then none else List.lookup k m := by
  induction m with
  | nil => by_cases h : k = key <;> simp [h, List.lookup]
  | cons p rest ih =>
      obtain ⟨a, v⟩ := p
      by_cases ha : a = key
      · rw [List.filter_cons_of_neg (by simp [ha])]
        rw [ih]
        subst ha
        by_cases h : k = a
        · simp [h]
        · simp only [if_neg h, List.lookup, show (k == a) = false by simp [h]]
      · rw [List.filter_cons_of_pos (by simp [ha])]
        by_cases h : k = a
        · simp [List.lookup, h, ha]
        · simp only [List.lookup, show (k == a) = false by simp [h]]
          exact ih

lemma lookup_mapDelete (m : List (String × CacheEntry)) (key k : String) :
    List.lookup k (mapDelete m key) =
      if k = key then none else List.lookup k m :=
  lookup_filter_ne m key k

lemma lookup_mapSet (m : List (String × CacheEntry)) (key k : String)
    (v : CacheEntry) :
    List.lookup k (mapSet m key v) =
      if k = key then some v else List.lookup k m := by
  unfold mapSet
  have happ : ∀ (l1 l2 : List (String × CacheEntry)),
      List.lookup k (l1 ++ l2) =
        match List.lookup k l1 with
        | some w => some w
        | none => List.lookup k l2 := by
    intro l1 l2
    induction l1 with
    | nil => simp [List.lookup]
    | cons p rest ih =>
        obtain ⟨a, w⟩ := p
        by_cases h : k = a
        · simp [List.lookup, h]
        · simp only [List.cons_append, List.lookup,
            show (k == a) = false by simp [h]]
          exact ih
  rw [happ, lookup_filter_ne]
  by_cases h : k = key
  · simp [h, List.lookup]
  · simp only [if_neg h]
    cases List.lookup k m with
    | some w => rfl
    | none => simp [List.lookup, show (k == key) = false by simp [h]]

lemma getFromCache_miss (cache : List (String × CacheEntry)) (key : String)
    (now : Int) (h : List.lookup key cache = none) :
    getFromCache cache key now = (none, cache) := by
  unfold getFromCache
  rw [h]

lemma getFromCache_expired (cache : List (String × CacheEntry)) (key : String)
    (now : Int) (c : CacheEntry) (h : List.lookup key cache = some c)
    (hexp : now > c.expiresAt) :
    getFromCache cache key now = (none, mapDelete cache key) := by
  unfold getFromCache
  rw [h]
  dsimp only
  rw [if_pos hexp]

lemma getFromCache_live (cache : List (String × CacheEntry)) (key : String)
    (now : Int) (c : CacheEntry) (h : List.lookup key cache = some c)
    (hlive : ¬ now > c.expiresAt) :
    getFromCache cache key now = (some c.data, cache) := by
  unfold getFromCache
  rw [h]
  dsimp only
  rw [if_neg hlive]

/-! ### Reduction lemmas for the `get` paths -/

lemma getM_none (st : ClientState) (tr : Nat → AttemptBeh) (t : Int)
    (endpoint : String) (cfg : PartialConfig) :
    getM st tr t endpoint cfg none =
      ⟨(requestM st tr t endpoint (mkGetConfig cfg)).result.map (fun x => x.data),
       st, [requestM st tr t endpoint (mkGetConfig cfg)]⟩ := rfl

lemma getM_zero (st : ClientState) (tr : Nat → AttemptBeh) (t : Int)
    (endpoint : String) (cfg : PartialConfig) :
    getM st tr t endpoint cfg (some 0) =
      ⟨(requestM st tr t endpoint (mkGetConfig cfg)).result.map (fun x => x.data),
       st, [requestM st tr t endpoint (mkGetConfig cfg)]⟩ := rfl

lemma getM_truthy_hit (st : ClientState) (tr : Nat → AttemptBeh) (t : Int)
    (endpoint : String) (cfg : PartialConfig) (v : Int) (c : CacheEntry)
    (hv : ¬ v = 0)
    (hc : List.lookup (getCacheKey endpoint (mkGetConfig cfg)) st.cache = some c)
    (hlive : ¬ t > c.expiresAt) (htruthy : jsTruthy c.data = true) :
    getM st tr t endpoint cfg (some v) = ⟨.ok c.data, st, []⟩ := by
  have hgc := getFromCache_live st.cache (getCacheKey endpoint (mkGetConfig cfg))
    t c hc hlive
  simp only [getM, hgc, if_neg hv, htruthy, if_true]

lemma getM_truthy_falsy (st : ClientState) (tr : Nat → AttemptBeh) (t : Int)
    (endpoint : String) (cfg : PartialConfig) (v : Int) (c : CacheEntry)
    (hv : ¬ v = 0)
    (hc : List.lookup (getCacheKey endpoint (mkGetConfig cfg)) st.cache = some c)
    (hlive : ¬ t > c.expiresAt) (hfalsy : jsTruthy c.data = false) :
    getM st tr t endpoint cfg (some v) =
      netAndCacheR st tr t endpoint cfg v st.cache := by
  have hgc := getFromCache_live st.cache (getCacheKey endpoint (mkGetConfig cfg))
    t c hc hlive
  simp [getM, hgc, if_neg hv, hfalsy]

lemma getM_truthy_miss (st : ClientState) (tr : Nat → AttemptBeh) (t : Int)
    (endpoint : String) (cfg : PartialConfig) (v : Int) (hv : ¬ v = 0)
    (hlk : List.lookup (getCacheKey endpoint (mkGetConfig cfg)) st.cache = none) :
    getM st tr t endpoint cfg (some v) =
      netAndCacheR st tr t endpoint cfg v st.cache := by
  have hgc := getFromCache_miss st.cache (getCacheKey endpoint (mkGetConfig cfg))
    t hlk
  simp only [getM, hgc, if_neg hv]

lemma getM_truthy_expired (st : ClientState) (tr : Nat → AttemptBeh) (t : Int)
    (endpoint : String) (cfg : PartialConfig) (v : Int) (c : CacheEntry)
    (hv : ¬ v = 0)
    (hc : List.lookup (getCacheKey endpoint (mkGetConfig cfg)) st.cache = some c)
    (hexp : t > c.expiresAt) :
    getM st tr t endpoint cfg (some v) =
      netAndCacheR st tr t endpoint cfg v
        (mapDelete st.cache (getCacheKey endpoint (mkGetConfig cfg))) := by
  have hgc := getFromCache_expired st.cache (getCacheKey endpoint (mkGetConfig cfg))
    t c hc hexp
  simp only [getM, hgc, if_neg hv]

lemma netR_ok (st : ClientState) (tr : Nat → AttemptBeh) (t : Int)
    (endpoint : String) (cfg : PartialConfig) (v : Int)
    (cacheAfter : List (String × CacheEntry)) (resp : ApiResponse)
    (hreq : (requestM st tr t endpoint (mkGetConfig cfg)).result = .ok resp) :
    netAndCacheR st tr t endpoint cfg v cacheAfter =
      ⟨.ok resp.data,
       { st with cache := (saveToCache cacheAfter
           (getCacheKey endpoint (mkGetConfig cfg)) resp.data v
           (requestM st tr t endpoint (mkGetConfig cfg)).endTime) },
       [requestM st tr t endpoint (mkGetConfig cfg)]⟩ := by
  simp only [netAndCacheR, hreq]

lemma netR_err (st : ClientState) (tr : Nat → AttemptBeh) (t : Int)
    (endpoint : String) (cfg : PartialConfig) (v : Int)
    (cacheAfter : List (String × CacheEntry)) (err : ApiErrorM)
    (hreq : (requestM st tr t endpoint (mkGetConfig cfg)).result = .error err) :
    netAndCacheR st tr t endpoint cfg v cacheAfter =
      ⟨.error err, { st with cache := cacheAfter },
       [requestM st tr t endpoint (mkGetConfig cfg)]⟩ := by
  simp only [netAndCacheR, hreq]

/-! ### Claim C6 — retry exhaustion -/

/-- Claim C6: for every call configured with `retries = n` whose transport
dependency throws on every attempt (each attempt settling before the abort
timer fires), the transport is invoked exactly `n + 1` times and the call
raises `ApiError` with status 0 carrying the last failure's message. -/
theorem claim_C6_retry_exhaustion (st : ClientState) (tr : Nat → AttemptBeh)
    (t0 : Int) (endpoint : String) (cfg : RequestConfig) (n : Nat)
    (hr : cfg.retries = some n)
    (hfail : ∀ k, k ≤ n → isFail (tr k) = true)
    (htime : ∀ k, k ≤ n →
      startAt tr k t0 0 (jsOrInt cfg.retryDelay 1000) + (durOf (tr k) : Int) <
        t0 + jsOrInt cfg.timeout st.defaultTimeout) :
    (requestM st tr t0 endpoint cfg).result = .error ⟨msgOf (tr n), 0, none⟩ ∧
    (requestM st tr t0 endpoint cfg).attempts = n + 1 := by
  have hfail0 : ∀ k, k ≤ n → isFail (tr (0 + k)) = true := by
    intro k hk; rw [Nat.zero_add]; exact hfail k hk
  have htime0 : ∀ k, k ≤ n →
      startAt tr k t0 0 (jsOrInt cfg.retryDelay 1000) + (durOf (tr (0 + k)) : Int) <
        t0 + jsOrInt cfg.timeout st.defaultTimeout := by
    intro k hk; rw [Nat.zero_add]; exact htime k hk
  have hfr := fetchWithRetry_allFail tr (t0 + jsOrInt cfg.timeout st.defaultTimeout)
      n t0 0 (jsOrInt cfg.retryDelay 1000) hfail0 htime0
  simp only [requestM, hr, Option.getD_some]
  rw [hfr]
  simp [classify_typeErr]

/-- Witness for C6: a transport failing all three attempts with
`retries = 2` yields status 0 with the third attempt's message after
exactly 3 invocations. -/
theorem claim_C6_witness :
    (requestM (mkClient ("http://a") []) trC6 0 ("/e") cfgC6).result =
      .error ⟨("boom2"), 0, none⟩ ∧
    (requestM (mkClient ("http://a") []) trC6 0 ("/e") cfgC6).attempts = 3 := by
  have h := claim_C6_retry_exhaustion (mkClient ("http://a") []) trC6 0 ("/e")
    cfgC6 2 rfl (by decide) (by decide)
  exact ⟨h.1, h.2⟩

/-! ### Claim C7 — exponential backoff sequencing -/

/-- Claim C7: in every run of the retry wrapper the recorded waits form the
sequence `delay, 2*delay, 4*delay, …` — the wait before the `k`-th retry
(1-indexed) is `delay * 2 ^ (k-1)`, one wait per extra transport
invocation. -/
theorem claim_C7_backoff_doubling (tr : Nat → AttemptBeh) (abortTime : Int)
    (retries : Nat) (t : Int) (i : Nat) (delay : Int) :
    (fetchWithRetry tr abortTime retries t i delay).waits =
      (List.range ((fetchWithRetry tr abortTime retries t i delay).attempts - 1)).map
        (fun k => delay * 2 ^ k) := by
  induction retries generalizing t i delay with
  | zero => simp [fetchWithRetry]
  | succ m ih =>
      cases hf : (doFetch tr abortTime t i).1 with
      | ok r => simp [fetchWithRetry, hf]
      | error e =>
          simp only [fetchWithRetry, hf]
          rw [ih ((doFetch tr abortTime t i).2 + max delay 0) (i + 1) (delay * 2)]
          have hpos := fetchWithRetry_attempts_pos tr abortTime m
            ((doFetch tr abortTime t i).2 + max delay 0) (i + 1) (delay * 2)
          have harith :
              (fetchWithRetry tr abortTime m ((doFetch tr abortTime t i).2 + max delay 0)
                (i + 1) (delay * 2)).attempts + 1 - 1 =
              ((fetchWithRetry tr abortTime m ((doFetch tr abortTime t i).2 + max delay 0)
                (i + 1) (delay * 2)).attempts - 1) + 1 := by omega
          rw [harith, waits_cons]

/-! ### Claim C9 — server-error passthrough -/

/-- Claim C9: when the first transport attempt settles (before the abort
timer) with a response whose status is outside 200-299, the call raises
`ApiError` carrying that status and the parsed body as `response`, and the
transport is invoked exactly once — no retry attempts are consumed,
whatever `retries` the config carries. -/
theorem claim_C9_server_error (st : ClientState) (tr : Nat → AttemptBeh)
    (t0 : Int) (endpoint : String) (cfg : RequestConfig) (d : Nat)
    (resp : Response)
    (hbeh : tr 0 = .settles d (.ok resp))
    (hd : (d : Int) < jsOrInt cfg.timeout st.defaultTimeout)
    (hstatus : resp.ok = false) :
    (requestM st tr t0 endpoint cfg).result =
      .error ⟨("HTTP ") ++ toString resp.status ++ (": ") ++ resp.statusText,
              resp.status, some resp.data⟩ ∧
    (requestM st tr t0 endpoint cfg).attempts = 1 := by
  have hfr := fetchWithRetry_failsThenOk tr
      (t0 + jsOrInt cfg.timeout st.defaultTimeout) 0 (cfg.retries.getD 0)
      t0 0 (jsOrInt cfg.retryDelay 1000) d resp (Nat.zero_le _)
      (by intro k hk; exact absurd hk (by omega))
      (by simpa using hbeh)
      (by intro k hk
          have hk0 : k = 0 := by omega
          subst hk0
          simp only [Nat.add_zero, startAt, hbeh, durOf]
          omega)
  simp only [requestM]
  rw [hfr]
  simp [hstatus]

/-- Witness for C9: a 404 response raises `ApiError(404)` with the parsed
body attached after a single transport invocation, even with 5 retries
configured. -/
theorem claim_C9_witness :
    (requestM (mkClient ("http://a") []) trC9 0 ("/u") cfgC9).result =
      .error ⟨("HTTP 404: Not Found"), 404, some (.str ("missing"))⟩ ∧
    (requestM (mkClient ("http://a") []) trC9 0 ("/u") cfgC9).attempts = 1 := by
  have h := claim_C9_server_error (mkClient ("http://a") []) trC9 0 ("/u")
    cfgC9 2 respC9 rfl (by decide) (by decide)
  exact ⟨h.1, h.2⟩

/-! ### Claim C10 — Content-Type header precedence -/

/-- Claim C10: the outgoing header map of every call contains
"Content-Type" bound to "application/json" unless the caller supplied that
key in the construction-time defaults or in the per-call headers; per-call
headers win over construction-time defaults, which win over the built-in
binding. -/
theorem claim_C10_content_type (b : String) (ctorH : List (String × String))
    (c : List (String × CacheEntry)) (tr : Nat → AttemptBeh) (t0 : Int)
    (endpoint : String) (cfg : RequestConfig) :
    (∀ v, jsLookup (cfg.headers.getD []) ("Content-Type") = some v →
      jsLookup ((requestM { mkClient b ctorH with cache := c } tr t0 endpoint cfg).opts.headers)
        ("Content-Type") = some v) ∧
    (jsLookup (cfg.headers.getD []) ("Content-Type") = none →
      ∀ w, jsLookup ctorH ("Content-Type") = some w →
        jsLookup ((requestM { mkClient b ctorH with cache := c } tr t0 endpoint cfg).opts.headers)
          ("Content-Type") = some w) ∧
    (jsLookup (cfg.headers.getD []) ("Content-Type") = none →
      jsLookup ctorH ("Content-Type") = none →
      jsLookup ((requestM { mkClient b ctorH with cache := c } tr t0 endpoint cfg).opts.headers)
        ("Content-Type") = some ("application/json")) := by
  have hopts :
      (requestM { mkClient b ctorH with cache := c } tr t0 endpoint cfg).opts.headers =
        ((("Content-Type"), ("application/json")) :: ctorH) ++ cfg.headers.getD [] := by
    simp [requestM, buildOptions, mkClient]
  have hsingle : jsLookup [((("Content-Type"), ("application/json")))] ("Content-Type") =
      some ("application/json") := by
    simp [jsLookup]
  refine ⟨?_, ?_, ?_⟩
  · intro v hv
    rw [hopts, jsLookup_append, hv]
  · intro hcfg w hctor
    rw [hopts, jsLookup_append, hcfg, ← List.singleton_append, jsLookup_append, hctor]
  · intro hcfg hctor
    rw [hopts, jsLookup_append, hcfg, ← List.singleton_append, jsLookup_append, hctor,
      hsingle]

/-- Witness for C10: with no caller-supplied Content-Type anywhere, the
outgoing headers carry the built-in "application/json" binding. -/
theorem claim_C10_witness :
    jsLookup ((requestM { mkClient ("u") [] with cache := [] } trC10 0 ("/e") cfgC10).opts.headers)
      ("Content-Type") = some ("application/json") :=
  (claim_C10_content_type ("u") [] [] trC10 0 ("/e") cfgC10).2.2 rfl rfl

/-! ### Claim C1 — timeout classification and the retry wrapper -/

/-- Counterexample for C1: with `retries = 2` and a transport that never
settles, the call does raise `ApiError(408, "Request timeout")` — but the
transport is invoked 3 times, not once: the retry wrapper does retry the
timed-out attempt. -/
theorem claim_C1_counterexample :
    (requestM (mkClient ("http://a") []) trC1 0 ("/e") cfgC1).result =
      .error ⟨("Request timeout"), 408, none⟩ ∧
    (requestM (mkClient ("http://a") []) trC1 0 ("/e") cfgC1).attempts = 3 ∧
    (requestM (mkClient ("http://a") []) trC1 0 ("/e") cfgC1).attempts ≠ 1 := by
  exact ⟨rfl, rfl, by decide⟩

/-- Claim C1 as amended: if the abort timer terminates the first transport
attempt, the call raises `ApiError(408, "Request timeout")`, but the retry
wrapper does consume the configured retries on the aborted attempt: the
transport is invoked `retries + 1` times in total (every retried attempt
fails immediately because the signal stays aborted), and only then is the
AbortError classified as 408. -/
theorem claim_C1_amended (st : ClientState) (tr : Nat → AttemptBeh) (t0 : Int)
    (endpoint : String) (cfg : RequestConfig)
    (habort : attemptAborts (tr 0) t0
      (t0 + jsOrInt cfg.timeout st.defaultTimeout) = true) :
    (requestM st tr t0 endpoint cfg).result =
      .error ⟨("Request timeout"), 408, none⟩ ∧
    (requestM st tr t0 endpoint cfg).attempts = cfg.retries.getD 0 + 1 := by
  obtain ⟨h1, h2⟩ := fetchWithRetry_abortFirst tr
    (t0 + jsOrInt cfg.timeout st.defaultTimeout) (cfg.retries.getD 0) t0 0
    (jsOrInt cfg.retryDelay 1000) habort
  constructor
  · simp only [requestM]
    rw [h1]
    simp [classify_abort]
  · simp only [requestM]
    exact h2

/-- Witness for C1 (amended): a transport that would settle only after
100 ms under a 10 ms timer yields 408 after `4 + 1` invocations. -/
theorem claim_C1_witness :
    (requestM (mkClient ("http://a") []) trC1W 0 ("/e") cfgC1W).result =
      .error ⟨("Request timeout"), 408, none⟩ ∧
    (requestM (mkClient ("http://a") []) trC1W 0 ("/e") cfgC1W).attempts =
      cfgC1W.retries.getD 0 + 1 :=
  claim_C1_amended (mkClient ("http://a") []) trC1W 0 ("/e") cfgC1W (by decide)

/-! ### Claim C3 — the entry point fixes the method -/

/-- Counterexample for C3: the spread `\x7b method: "GET", ...config \x7d`
puts the caller's config last, so `get` with `config.method = "POST"`
sends a POST request. -/
theorem claim_C3_counterexample :
    ((getM (mkClient ("http://a") []) trC3 0 ("/e") cfgC3 none).calls.map
      (fun r => r.opts.method) = [HttpMethod.POST]) ∧
    HttpMethod.POST ≠ HttpMethod.GET :=
  ⟨rfl, by decide⟩

/-- Claim C3 as amended: each verb entry point only provides its verb as
the default method — the outgoing method is the entry point's verb exactly
when the caller's config does not carry a `method`, and a caller-supplied
`config.method` overrides the verb.  The other config fields (headers,
timeout, retries, retryDelay) pass through unchanged. -/
theorem claim_C3_amended (st : ClientState) (tr : Nat → AttemptBeh) (t : Int)
    (endpoint : String) (cfg : PartialConfig) (body : Json) :
    ((getM st tr t endpoint cfg none).calls.map (fun r => r.opts.method) =
      [cfg.method.getD .GET]) ∧
    ((postM st tr t endpoint body cfg).calls.map (fun r => r.opts.method) =
      [cfg.method.getD .POST]) ∧
    ((putM st tr t endpoint body cfg).calls.map (fun r => r.opts.method) =
      [cfg.method.getD .PUT]) ∧
    ((patchM st tr t endpoint body cfg).calls.map (fun r => r.opts.method) =
      [cfg.method.getD .PATCH]) ∧
    ((deleteM st tr t endpoint cfg).calls.map (fun r => r.opts.method) =
      [cfg.method.getD .DELETE]) ∧
    (mkGetConfig cfg).headers = cfg.headers ∧
    (mkGetConfig cfg).timeout = cfg.timeout ∧
    (mkGetConfig cfg).retries = cfg.retries ∧
    (mkGetConfig cfg).retryDelay = cfg.retryDelay :=
  ⟨rfl, rfl, rfl, rfl, rfl, rfl, rfl, rfl, rfl⟩

/-! ### Claim C4 — what the cache key identifies -/

/-- Counterexample for C4: the key uses `JSON.stringify(config.body || \x7b\x7d)`,
so the falsy body `0` and an absent body both stringify as the empty
object — two calls with different bodies share one key. -/
theorem claim_C4_counterexample :
    getCacheKey ("/u") cfgC4z = getCacheKey ("/u") cfgC4n ∧
    cfgC4z.body ≠ cfgC4n.body :=
  ⟨rfl, fun h => Option.noConfusion h⟩

/-- Claim C4 as amended: the forward direction holds — the key depends on
nothing but method, endpoint and body, so calls identical in those three
derive the same key — but the key does not uniquely identify the body:
every falsy body is keyed like an absent body. -/
theorem claim_C4_amended (endpoint1 endpoint2 : String)
    (c1 c2 : RequestConfig) (he : endpoint1 = endpoint2)
    (hm : c1.method = c2.method) (hb : c1.body = c2.body) :
    getCacheKey endpoint1 c1 = getCacheKey endpoint2 c2 := by
  unfold getCacheKey
  rw [he, hm, hb]

/-- Witness for C4 (amended): configs differing only in headers, timeout
and retries derive the same key. -/
theorem claim_C4_witness :
    getCacheKey ("/u") cfgC4a = getCacheKey ("/u") cfgC4b :=
  claim_C4_amended ("/u") ("/u") cfgC4a cfgC4b rfl rfl rfl

/-! ### Claim C5 — the cancellation timer length -/

/-- Counterexample for C5: a caller-supplied `timeout` of 0 is falsy under
`config.timeout || this.defaultTimeout`, so the timer is 30000 ms, not the
supplied 0. -/
theorem claim_C5_counterexample :
    cfgC5.timeout = some 0 ∧
    (requestM (mkClient ("http://a") []) trC5 0 ("/e") cfgC5).timerMs = 30000 ∧
    (requestM (mkClient ("http://a") []) trC5 0 ("/e") cfgC5).timerMs ≠ 0 :=
  ⟨rfl, rfl, by decide⟩

/-- Claim C5 as amended: the timer equals the caller-supplied
`config.timeout` whenever that value is nonzero, and equals the engine
default of 30000 ms when `config.timeout` is absent or equal to 0 (the
code uses JavaScript `||`, which treats a supplied 0 as unset). -/
theorem claim_C5_amended (st : ClientState) (tr : Nat → AttemptBeh) (t0 : Int)
    (endpoint : String) (cfg : RequestConfig) :
    (∀ v : Int, cfg.timeout = some v → v ≠ 0 →
      (requestM st tr t0 endpoint cfg).timerMs = v) ∧
    (cfg.timeout = none →
      (requestM st tr t0 endpoint cfg).timerMs = st.defaultTimeout) ∧
    (cfg.timeout = some 0 →
      (requestM st tr t0 endpoint cfg).timerMs = st.defaultTimeout) ∧
    (∀ (b : String) (hs : List (String × String)),
      (mkClient b hs).defaultTimeout = 30000) := by
  refine ⟨?_, ?_, ?_, fun b hs => rfl⟩
  · intro v hv hnz
    simp [requestM, jsOrInt, hv, hnz]
  · intro hv
    simp [requestM, jsOrInt, hv]
  · intro hv
    simp [requestM, jsOrInt, hv]

/-- Witness for C5 (amended): a supplied nonzero timeout of 77 ms is used
as the timer length. -/
theorem claim_C5_witness :
    (requestM (mkClient ("http://a") []) trC5 0 ("/e") cfgC5W).timerMs = 77 :=
  (claim_C5_amended (mkClient ("http://a") []) trC5 0 ("/e") cfgC5W).1 77 rfl
    (by decide)

/-! ### Claim C2 — cache hit avoids the network -/

/-- Counterexample for C2: a first cacheable GET stores the (falsy) JSON
value `false`; an identical second call at instant 5, well before the
entry's `expiresAt = 1001`, nevertheless invokes the transport again
(one `request` call) and returns the new network result `7`, not the
cached `false` — the `if (cached)` truthiness test treats falsy cached
data as a miss. -/
theorem claim_C2_counterexample :
    callC2a.result = .ok (Json.bool false) ∧
    List.lookup (getCacheKey ("/d") (mkGetConfig {})) callC2a.state.cache =
      some ⟨Json.bool false, 1, 1001⟩ ∧
    ¬ (5 : Int) > 1001 ∧
    callC2b.calls.length = 1 ∧
    callC2b.result = .ok (Json.num 7) ∧
    Json.num 7 ≠ Json.bool false :=
  ⟨rfl, rfl, by decide, rfl, rfl, fun h => Json.noConfusion h⟩

/-- Claim C2 as amended: a cacheable GET (`cacheTtl > 0`) finding a live
entry under its derived key returns the cached data with no transport
invocation and no state change — provided the cached data is truthy; a
falsy cached value (null, false, 0, "") fails the `if (cached)` check and
the transport is invoked again. -/
theorem claim_C2_amended (st : ClientState) (tr : Nat → AttemptBeh) (t : Int)
    (endpoint : String) (cfg : PartialConfig) (v : Int) (c : CacheEntry)
    (hv : 0 < v)
    (hc : List.lookup (getCacheKey endpoint (mkGetConfig cfg)) st.cache = some c)
    (hlive : ¬ t > c.expiresAt)
    (htruthy : jsTruthy c.data = true) :
    (getM st tr t endpoint cfg (some v)).result = .ok c.data ∧
    (getM st tr t endpoint cfg (some v)).calls = [] ∧
    (getM st tr t endpoint cfg (some v)).state = st := by
  rw [getM_truthy_hit st tr t endpoint cfg v c (by omega) hc hlive htruthy]
  exact ⟨rfl, rfl, rfl⟩

/-- Witness for C2 (amended): a live truthy entry is served from the cache
with no transport call and no state change. -/
theorem claim_C2_witness :
    (getM stC2W trC2W 5 ("/d") {} (some 1000)).result = .ok (Json.num 3) ∧
    (getM stC2W trC2W 5 ("/d") {} (some 1000)).calls = [] ∧
    (getM stC2W trC2W 5 ("/d") {} (some 1000)).state = stC2W :=
  claim_C2_amended stC2W trC2W 5 ("/d") {} 1000 ⟨Json.num 3, 0, 1000⟩
    (by decide) rfl (by decide) (by decide)

/-! ### Claim C8 — who populates the cache -/

/-- Counterexample for C8: starting from an empty cache, a single `get`
whose caller supplied `cacheTtl = -1` — which is NOT `> 0` — succeeds and
leaves an entry in the cache map (`if (cacheTtl)` only tests truthiness,
and -1 is truthy), so not every entry comes from a call with
`cacheTtlMs > 0`. -/
theorem claim_C8_counterexample :
    (mkClient ("http://a") []).cache = [] ∧
    ¬ ((-1 : Int) > 0) ∧
    runC8.result = .ok (Json.num 5) ∧
    runC8.state.cache =
      [(getCacheKey ("/e") (mkGetConfig {}), ⟨Json.num 5, 1, 0⟩)] :=
  ⟨rfl, by decide, rfl, rfl⟩

/-- Claim C8 as amended: `post`/`put`/`patch`/`delete` never consult nor
modify the cache, `clearCache` empties it, a `get` without a truthy TTL
leaves the state untouched, a failing `get` never adds or modifies an
entry (it can at most lazily evict an expired one), and a successful `get`
changes the map only at its derived key, storing exactly the returned
data — but the creating call's TTL need only be truthy (nonzero, possibly
negative), not `> 0`, and its outgoing verb is GET only by default (a
caller-supplied `config.method` overrides it). -/
theorem claim_C8_amended (st : ClientState) (tr : Nat → AttemptBeh) (t : Int)
    (endpoint : String) (cfg : PartialConfig) (body : Json) :
    ((postM st tr t endpoint body cfg).state = st) ∧
    ((putM st tr t endpoint body cfg).state = st) ∧
    ((patchM st tr t endpoint body cfg).state = st) ∧
    ((deleteM st tr t endpoint cfg).state = st) ∧
    ((clearCacheM st).cache = []) ∧
    ((getM st tr t endpoint cfg none).state = st) ∧
    (∀ c2, (postM { st with cache := c2 } tr t endpoint body cfg).result =
      (postM st tr t endpoint body cfg).result) ∧
    (∀ ttl err, (getM st tr t endpoint cfg ttl).result = .error err →
      ∀ k, List.lookup k (getM st tr t endpoint cfg ttl).state.cache =
          List.lookup k st.cache ∨
        List.lookup k (getM st tr t endpoint cfg ttl).state.cache = none) ∧
    (∀ v dta, (getM st tr t endpoint cfg (some v)).result = .ok dta →
      ∀ k, List.lookup k (getM st tr t endpoint cfg (some v)).state.cache =
          List.lookup k st.cache ∨
        List.lookup k (getM st tr t endpoint cfg (some v)).state.cache = none ∨
        (k = getCacheKey endpoint (mkGetConfig cfg) ∧
         Option.map (fun en => en.data)
           (List.lookup k (getM st tr t endpoint cfg (some v)).state.cache) =
             some dta)) := by
  refine ⟨rfl, rfl, rfl, rfl, rfl, rfl, fun c2 => rfl, ?_, ?_⟩
  · -- a failing get never adds or modifies an entry
    intro ttl err herr k
    cases ttl with
    | none => left; rfl
    | some v =>
        by_cases hv : v = 0
        · subst hv; left; rfl
        · cases hlk : List.lookup (getCacheKey endpoint (mkGetConfig cfg)) st.cache with
          | none =>
              rw [getM_truthy_miss st tr t endpoint cfg v hv hlk] at herr ⊢
              cases hreq : (requestM st tr t endpoint (mkGetConfig cfg)).result with
              | ok resp =>
                  rw [netR_ok st tr t endpoint cfg v st.cache resp hreq] at herr
                  exact absurd herr (by simp)
              | error e2 =>
                  rw [netR_err st tr t endpoint cfg v st.cache e2 hreq]
                  left; rfl
          | some c =>
              by_cases hexp : t > c.expiresAt
              · rw [getM_truthy_expired st tr t endpoint cfg v c hv hlk hexp] at herr ⊢
                cases hreq : (requestM st tr t endpoint (mkGetConfig cfg)).result with
                | ok resp =>
                    rw [netR_ok st tr t endpoint cfg v _ resp hreq] at herr
                    exact absurd herr (by simp)
                | error e2 =>
                    rw [netR_err st tr t endpoint cfg v _ e2 hreq]
                    rw [show ({ st with cache := (mapDelete st.cache
                        (getCacheKey endpoint (mkGetConfig cfg))) } : ClientState).cache =
                      mapDelete st.cache (getCacheKey endpoint (mkGetConfig cfg)) from rfl]
                    rw [lookup_mapDelete]
                    by_cases hk : k = getCacheKey endpoint (mkGetConfig cfg)
                    · right; rw [if_pos hk]
                    · left; rw [if_neg hk]
              · by_cases htr : jsTruthy c.data = true
                · rw [getM_truthy_hit st tr t endpoint cfg v c hv hlk hexp htr] at herr
                  exact absurd herr (by simp)
                · have hfalsy : jsTruthy c.data = false := by
                    cases hcd : jsTruthy c.data
                    · rfl
                    · exact absurd hcd htr
                  rw [getM_truthy_falsy st tr t endpoint cfg v c hv hlk hexp hfalsy] at herr ⊢
                  cases hreq : (requestM st tr t endpoint (mkGetConfig cfg)).result with
                  | ok resp =>
                      rw [netR_ok st tr t endpoint cfg v st.cache resp hreq] at herr
                      exact absurd herr (by simp)
                  | error e2 =>
                      rw [netR_err st tr t endpoint cfg v st.cache e2 hreq]
                      left; rfl
  · -- a successful get changes the map only at its derived key
    intro v dta hok k
    by_cases hv : v = 0
    · subst hv; left; rfl
    · cases hlk : List.lookup (getCacheKey endpoint (mkGetConfig cfg)) st.cache with
      | none =>
          rw [getM_truthy_miss st tr t endpoint cfg v hv hlk] at hok ⊢
          cases hreq : (requestM st tr t endpoint (mkGetConfig cfg)).result with
          | ok resp =>
              rw [netR_ok st tr t endpoint cfg v st.cache resp hreq] at hok ⊢
              have hdta : resp.data = dta := by
                simpa using hok
              by_cases hk : k = getCacheKey endpoint (mkGetConfig cfg)
              · right; right
                refine ⟨hk, ?_⟩
                rw [show ({ st with cache := (saveToCache st.cache
                    (getCacheKey endpoint (mkGetConfig cfg)) resp.data v
                    (requestM st tr t endpoint (mkGetConfig cfg)).endTime) } :
                    ClientState).cache = (saveToCache st.cache
                    (getCacheKey endpoint (mkGetConfig cfg)) resp.data v
                    (requestM st tr t endpoint (mkGetConfig cfg)).endTime) from rfl]
                unfold saveToCache
                rw [lookup_mapSet, if_pos hk]
                simp [hdta]
              · left
                rw [show ({ st with cache := (saveToCache st.cache
                    (getCacheKey endpoint (mkGetConfig cfg)) resp.data v
                    (requestM st tr t endpoint (mkGetConfig cfg)).endTime) } :
                    ClientState).cache = (saveToCache st.cache
                    (getCacheKey endpoint (mkGetConfig cfg)) resp.data v
                    (requestM st tr t endpoint (mkGetConfig cfg)).endTime) from rfl]
                unfold saveToCache
                rw [lookup_mapSet, if_neg hk]
          | error e2 =>
              rw [netR_err st tr t endpoint cfg v st.cache e2 hreq] at hok
              exact absurd hok (by simp)
      | some c =>
          by_cases hexp : t > c.expiresAt
          · rw [getM_truthy_expired st tr t endpoint cfg v c hv hlk hexp] at hok ⊢
            cases hreq : (requestM st tr t endpoint (mkGetConfig cfg)).result with
            | ok resp =>
                rw [netR_ok st tr t endpoint cfg v _ resp hreq] at hok ⊢
                have hdta : resp.data = dta := by
                  simpa using hok
                by_cases hk : k = getCacheKey endpoint (mkGetConfig cfg)
                · right; right
                  refine ⟨hk, ?_⟩
                  show Option.map (fun en => en.data)
                    (List.lookup k (saveToCache
                      (mapDelete st.cache (getCacheKey endpoint (mkGetConfig cfg)))
                      (getCacheKey endpoint (mkGetConfig cfg)) resp.data v
                      (requestM st tr t endpoint (mkGetConfig cfg)).endTime)) = some dta
                  unfold saveToCache
                  rw [lookup_mapSet, if_pos hk]
                  simp [hdta]
                · left
                  show List.lookup k (saveToCache
                      (mapDelete st.cache (getCacheKey endpoint (mkGetConfig cfg)))
                      (getCacheKey endpoint (mkGetConfig cfg)) resp.data v
                      (requestM st tr t endpoint (mkGetConfig cfg)).endTime) =
                    List.lookup k st.cache
                  unfold saveToCache
                  rw [lookup_mapSet, if_neg hk, lookup_mapDelete, if_neg hk]
            | error e2 =>
                rw [netR_err st tr t endpoint cfg v _ e2 hreq] at hok
                exact absurd hok (by simp)
          · by_cases htr : jsTruthy c.data = true
            · rw [getM_truthy_hit st tr t endpoint cfg v c hv hlk hexp htr] at hok ⊢
              left; rfl
            · have hfalsy : jsTruthy c.data = false := by
                cases hcd : jsTruthy c.data
                · rfl
                · exact absurd hcd htr
              rw [getM_truthy_falsy st tr t endpoint cfg v c hv hlk hexp hfalsy] at hok ⊢
              cases hreq : (requestM st tr t endpoint (mkGetConfig cfg)).result with
              | ok resp =>
                  rw [netR_ok st tr t endpoint cfg v st.cache resp hreq] at hok ⊢
                  have hdta : resp.data = dta := by
                    simpa using hok
                  by_cases hk : k = getCacheKey endpoint (mkGetConfig cfg)
                  · right; right
                    refine ⟨hk, ?_⟩
                    show Option.map (fun en => en.data)
                      (List.lookup k (saveToCache st.cache
                        (getCacheKey endpoint (mkGetConfig cfg)) resp.data v
                        (requestM st tr t endpoint (mkGetConfig cfg)).endTime)) = some dta
                    unfold saveToCache
                    rw [lookup_mapSet, if_pos hk]
                    simp [hdta]
                  · left
                    show List.lookup k (saveToCache st.cache
                        (getCacheKey endpoint (mkGetConfig cfg)) resp.data v
                        (requestM st tr t endpoint (mkGetConfig cfg)).endTime) =
                      List.lookup k st.cache
                    unfold saveToCache
                    rw [lookup_mapSet, if_neg hk]
              | error e2 =>
                  rw [netR_err st tr t endpoint cfg v st.cache e2 hreq] at hok
                  exact absurd hok (by simp)

/-- Witness for C8 (amended): a failing cacheable `get` leaves the lookup
of any key unchanged (or absent). -/
theorem claim_C8_witness :
    List.lookup ("z") (getM stC8W trC8W 0 ("/e") {} (some 7)).state.cache =
      List.lookup ("z") stC8W.cache ∨
    List.lookup ("z") (getM stC8W trC8W 0 ("/e") {} (some 7)).state.cache = none :=
  (claim_C8_amended stC8W trC8W 0 ("/e") {} Json.null).2.2.2.2.2.2.2.1
    (some 7) ⟨("down"), 0, none⟩ rfl ("z")

end ApiModel
